import Mathlib

/- Shallow embedding of the metro emulator data manager (dataMgr.py):
   the data manager's snapshot dictionaries, its fetch/update operations, the
   power-link safety interlock (push path and poll-path watcher), the sensor
   priority resolver, the wire-message codec and dispatcher, and the telemetry
   aggregator.  Machine state is passed explicitly; fallible Python code is
   modelled with Option (none = an exception was raised). -/

/-! ## Python dict operations (string-keyed association lists) -/

def dictGet {V : Type} : List (String × V) → String → Option V
  | [], _ => none
  | p :: ps, k => if p.1 = k then some p.2 else dictGet ps k

def dictKeys {V : Type} (d : List (String × V)) : List String :=
  d.map Prod.fst

def dictHas {V : Type} (d : List (String × V)) (k : String) : Bool :=
  d.any (fun p => decide (p.1 = k))

def dictSet {V : Type} (d : List (String × V)) (k : String) (v : V) : List (String × V) :=
  if dictHas d k then d.map (fun p => if p.1 = k then (k, v) else p) else d ++ [(k, v)]

/-- Models `for key in d.keys(): d[key] = f(key)` (assignments hit existing keys,
so the iterated key list never changes during the loop). -/
def dictRefresh {V : Type} (d : List (String × V)) (f : String → V) : List (String × V) :=
  (dictKeys d).foldl (fun acc k => dictSet acc k (f k)) d

/-! ## Line keys -/

def welineK : String := "weline"
def nslineK : String := "nsline"
def cclineK : String := "ccline"
def mtlineK : String := "mtline"

def lineKeys : List String := [welineK, nslineK, cclineK, mtlineK]

/-! ## Python field values (for telemetry readings) -/

/-- A Python value stored in a train's real-info dict: `None`, a number, or a
string (`empty` marks the falsy empty string, `parsed` is `float(s)` when the
string parses as a float and `none` when `float(s)` raises). -/
inductive FVal
  | fnone
  | fnum (q : ℚ)
  | fstr (empty : Bool) (parsed : Option ℚ)
deriving DecidableEq

def pyTruthy : FVal → Bool
  | .fnone => false
  | .fnum q => decide (q ≠ 0)
  | .fstr e _ => !e

/-- `float(v)`: `none` means the conversion raises. -/
def pyFloat : FVal → Option ℚ
  | .fnone => none
  | .fnum q => some q
  | .fstr _ p => p

/-- The dict returned by `train.getTrainRealInfo()`; each field is `none` when
the corresponding key is missing. -/
structure RealInfo where
  fsensor : Option FVal
  speed : Option FVal
  voltage : Option FVal
  current : Option FVal
deriving DecidableEq

def emptyRealInfo : RealInfo := ⟨none, none, none, none⟩

/-! ## The simulation engine (gv.iMapMgr collaborator) -/

/-- A train agent: `emgFails` marks a train whose `setEmgStop` raises. -/
structure EngineTrain where
  emgStop : Bool
  emgFails : Bool
  powerState : Int
  realInfo : Option RealInfo
deriving DecidableEq

/-- `[state['fsensor'], state['speed'], state['voltage'], state['current']]`. -/
structure RtuEntry where
  fsensor : FVal
  speed : FVal
  voltage : FVal
  current : FVal
deriving DecidableEq

structure Engine where
  sensors : String → List Nat
  stations : String → List Bool
  trains : String → List EngineTrain
  signals : List (String × Int)

/-! ## The DataManager state -/

structure DM where
  sensorsDict : List (String × Option (List Nat))
  stationsDict : List (String × Option (List Nat))
  trainsDict : List (String × Option (List Nat))
  trainsRtuDict : List (String × Option (List RtuEntry))
  sensorPlcUpdateT : ℚ
  stationPlcUpdateT : ℚ
  trainPlcUpdateT : ℚ
  trainRtuUpdateT : ℚ
  lastPowerlinkRailway : Option Bool
deriving DecidableEq

def initDM : DM :=
  { sensorsDict := [(welineK, none), (nslineK, none), (cclineK, none), (mtlineK, none)]
    stationsDict := [(welineK, none), (nslineK, none), (cclineK, none), (mtlineK, none)]
    trainsDict := [(welineK, none), (nslineK, none), (cclineK, none), (mtlineK, none)]
    trainsRtuDict := [(welineK, none), (nslineK, none), (cclineK, none), (mtlineK, none)]
    sensorPlcUpdateT := 0
    stationPlcUpdateT := 0
    trainPlcUpdateT := 0
    trainRtuUpdateT := 0
    lastPowerlinkRailway := none }

def dmWF (dm : DM) : Prop :=
  dictKeys dm.sensorsDict = lineKeys ∧ dictKeys dm.stationsDict = lineKeys ∧
    dictKeys dm.trainsDict = lineKeys ∧ dictKeys dm.trainsRtuDict = lineKeys

instance (dm : DM) : Decidable (dmWF dm) := by unfold dmWF; infer_instance

def tablesKeys (dm : DM) : List String × List String × List String × List String :=
  (dictKeys dm.sensorsDict, dictKeys dm.stationsDict,
   dictKeys dm.trainsDict, dictKeys dm.trainsRtuDict)

/-! ## Power-link fan-out (_applyRailwayPowerLink) -/

/-- `for train in trains: train.setEmgStop(flag)` inside one per-line
`try/except`: a raising train aborts the rest of that line's loop, leaving the
failing train and every later train of the line untouched. -/
def applyLineTrains : List EngineTrain → Bool → List EngineTrain
  | [], _ => []
  | t :: ts, flag =>
      if t.emgFails then t :: ts
      else { t with emgStop := flag } :: applyLineTrains ts flag

def applyRailwayPowerLink (railway_on : Bool) : Option Engine → Option Engine
  | none => none
  | some e =>
      some { e with trains := fun k =>
        if k ∈ lineKeys then applyLineTrains (e.trains k) (!railway_on) else e.trains k }

/-! ## Push-path power-link handling (msgHandler POST/powerLink branch) -/

def handlePowerLink (eng : Option Engine) (dm : DM) (railway_on : Bool) :
    Option Engine × DM × Bool :=
  match dm.lastPowerlinkRailway with
  | none =>
      (applyRailwayPowerLink railway_on eng,
       { dm with lastPowerlinkRailway := some railway_on }, true)
  | some b =>
      if railway_on ≠ b then
        (applyRailwayPowerLink railway_on eng,
         { dm with lastPowerlinkRailway := some railway_on }, true)
      else (eng, dm, false)

/-! ## Poll-path power-link watcher (PowerLinkWatcher.run) -/

structure WatcherSt where
  seen_true : Bool
  false_count : Nat
deriving DecidableEq

def watcherInit : WatcherSt := ⟨false, 0⟩

/-- One polled reading; the returned Bool is whether `_set_all_trains_power(False)`
was called on this reading. -/
def watcherStep (s : WatcherSt) (railway_on : Bool) : WatcherSt × Bool :=
  if railway_on then (⟨true, 0⟩, false)
  else if s.seen_true then
    (⟨s.seen_true, s.false_count + 1⟩, decide (3 ≤ s.false_count + 1))
  else (s, false)

def watcherRun (s : WatcherSt) : List Bool → WatcherSt × Nat
  | [] => (s, 0)
  | r :: rs =>
      let s1 := watcherStep s r
      let rest := watcherRun s1.1 rs
      (rest.1, (if s1.2 then 1 else 0) + rest.2)

/-- Number of emergency-stop applications over a polled reading sequence,
starting from the watcher's initial state. -/
def stopCount (rs : List Bool) : Nat := (watcherRun watcherInit rs).2

/-! ## Sensor priority resolver (_updateSensorPriority) -/

def priorityConfig : List (Option (String × List Nat)) :=
  [some (nslineK, [0]), none,
   some (nslineK, [4]), none,
   some (nslineK, [2]), none,
   some (nslineK, [2]), none,
   some (welineK, [7, 9]), none,
   some (welineK, [5, 11]), none,
   some (welineK, [3, 13]), none,
   some (welineK, [1, 15]), none]

/-- One loop iteration of the resolver at index `i` of the live cc-line list
`acc` (the guard `i < pryLen and priorityConfig[i]` is `getD i none`). -/
def resolveStep (d : List (String × Option (List Nat))) (acc : List Nat) (i : Nat) :
    List Nat :=
  match priorityConfig.getD i none with
  | none => acc
  | some r =>
      let val := acc.getD i 0
      let arr := ((dictGet d r.1).getD none).getD []
      let ow := r.2.any (fun j => decide (j < arr.length) && decide (arr.getD j 0 ≠ 0))
      if val ≠ 0 ∧ ow = true then acc.set i 0 else acc

def resolveCc (d : List (String × Option (List Nat))) (cc : List Nat) : List Nat :=
  (List.range cc.length).foldl (resolveStep d) cc

def updateSensorPriority (d : List (String × Option (List Nat))) :
    List (String × Option (List Nat)) :=
  match dictGet d cclineK with
  | some (some cc) => if cc = [] then d else dictSet d cclineK (some (resolveCc d cc))
  | _ => d

/-- Per-index value of the resolver, computed from the original cc array: the
loop at step i writes only position i and reads only the other lines' arrays,
so the sequential in-place loop agrees with this pointwise description. -/
def ccSpecVal (d : List (String × Option (List Nat))) (cc : List Nat) (i : Nat) : Nat :=
  match priorityConfig.getD i none with
  | none => cc.getD i 0
  | some r =>
      let arr := ((dictGet d r.1).getD none).getD []
      if cc.getD i 0 ≠ 0 ∧
         (r.2.any (fun j => decide (j < arr.length) && decide (arr.getD j 0 ≠ 0))) = true
      then 0 else cc.getD i 0

/-! ## Update functions -/

def updateSensorsData (eng : Option Engine) (testMD : Bool) (dm : DM) : DM :=
  match eng with
  | none => dm
  | some e =>
      let d1 := dictRefresh dm.sensorsDict (fun k => some (e.sensors k))
      { dm with sensorsDict := if testMD then d1 else updateSensorPriority d1 }

def updateStationsData (eng : Option Engine) (dm : DM) : DM :=
  match eng with
  | none => dm
  | some e =>
      { dm with stationsDict := (dictRefresh dm.stationsDict
          (fun k => some ((e.stations k).map (fun b => if b then 1 else 0)))) }

def updateTrainsPwrData (eng : Option Engine) (dm : DM) : DM :=
  match eng with
  | none => dm
  | some e =>
      { dm with trainsDict := (dictRefresh dm.trainsDict
          (fun k => some ((e.trains k).map (fun t => if t.powerState = 0 then 0 else 1)))) }

/-- Builds one RTU entry; `none` when `getTrainRealInfo()` returned `None` or a
key is missing (the subscript raises). -/
def rtuEntryOf (t : EngineTrain) : Option RtuEntry :=
  match t.realInfo with
  | none => none
  | some i =>
      match i.fsensor, i.speed, i.voltage, i.current with
      | some a, some b, some c, some d => some ⟨a, b, c, d⟩
      | _, _, _, _ => none

/-- One line's RTU snapshot; on a raising train the appended prefix is kept and
the flag reports failure. -/
def rtuLine : List EngineTrain → List RtuEntry × Bool
  | [] => ([], true)
  | t :: ts =>
      match rtuEntryOf t with
      | none => ([], false)
      | some en =>
          let rest := rtuLine ts
          (en :: rest.1, rest.2)

/-- The per-key loop of updateTrainsSenData; an exception propagates at once,
leaving later keys untouched. -/
def updateTrainsSenDataAux (e : Engine) :
    List String → List (String × Option (List RtuEntry)) →
      List (String × Option (List RtuEntry)) × Bool
  | [], d => (d, true)
  | k :: ks, d =>
      let line := rtuLine (e.trains k)
      let d1 := dictSet d k (some line.1)
      if line.2 then updateTrainsSenDataAux e ks d1 else (d1, false)

def updateTrainsSenData (eng : Option Engine) (dm : DM) : DM × Bool :=
  match eng with
  | none => (dm, true)
  | some e =>
      let r := updateTrainsSenDataAux e (dictKeys dm.trainsRtuDict) dm.trainsRtuDict
      ({ dm with trainsRtuDict := r.1 }, r.2)

/-! ## Fetch functions -/

inductive FetchResp (α : Type)
  | failed
  | ok (body : List (String × α))
deriving DecidableEq

/-- `if key in d.keys(): reqDict[key] = d[key]` for one request entry. -/
def fillFrom {V : Type} (d : List (String × Option V)) (p : String × Option V) :
    String × Option V :=
  if dictHas d p.1 then (p.1, (dictGet d p.1).getD none) else p

/-- `req = none` models a body that `json.loads` rejects: the handler returns
the failed response before touching the timestamp. -/
def fetchSensorInfo (now : ℚ) (eng : Option Engine) (testMD : Bool) (dm : DM)
    (req : Option (List (String × Option (List Nat)))) :
    DM × FetchResp (Option (List Nat)) :=
  match req with
  | none => (dm, .failed)
  | some reqDict =>
      let dm2 := updateSensorsData eng testMD { dm with sensorPlcUpdateT := now }
      (dm2, .ok (reqDict.map (fillFrom dm2.sensorsDict)))

def fetchStationInfo (now : ℚ) (eng : Option Engine) (dm : DM)
    (req : Option (List (String × Option (List Nat)))) :
    DM × FetchResp (Option (List Nat)) :=
  match req with
  | none => (dm, .failed)
  | some reqDict =>
      let dm2 := updateStationsData eng { dm with stationPlcUpdateT := now }
      (dm2, .ok (reqDict.map (fillFrom dm2.stationsDict)))

def fetchTrainPwrInfo (now : ℚ) (eng : Option Engine) (dm : DM)
    (req : Option (List (String × Option (List Nat)))) :
    DM × FetchResp (Option (List Nat)) :=
  match req with
  | none => (dm, .failed)
  | some reqDict =>
      let dm2 := updateTrainsPwrData eng { dm with trainPlcUpdateT := now }
      (dm2, .ok (reqDict.map (fillFrom dm2.trainsDict)))

/-- The fill loop of fetchTrainSensInfo: membership is tested against
`trainsDict` but the value is read from `trainsRtuDict` (as in the source);
a missing key there raises, failing the whole request. -/
def rtuFill (trainsD : List (String × Option (List Nat)))
    (rtuD : List (String × Option (List RtuEntry))) :
    List (String × Option (List RtuEntry)) →
      Option (List (String × Option (List RtuEntry)))
  | [] => some []
  | p :: ps =>
      if dictHas trainsD p.1 then
        match dictGet rtuD p.1 with
        | none => none
        | some v => (rtuFill trainsD rtuD ps).map (fun r => (p.1, v) :: r)
      else (rtuFill trainsD rtuD ps).map (fun r => p :: r)

def fetchTrainSensInfo (now : ℚ) (eng : Option Engine) (dm : DM)
    (req : Option (List (String × Option (List RtuEntry)))) :
    DM × FetchResp (Option (List RtuEntry)) :=
  match req with
  | none => (dm, .failed)
  | some reqDict =>
      let r := updateTrainsSenData eng { dm with trainRtuUpdateT := now }
      if r.2 then
        match rtuFill r.1.trainsDict r.1.trainsRtuDict reqDict with
        | some body => (r.1, .ok body)
        | none => (r.1, .failed)
      else (r.1, .failed)

/-! ## Wire-message codec and dispatcher -/

def isPySpace (c : Char) : Bool :=
  c == ' ' || c == '\t' || c == '\n' || c == '\r' || c == '\x0b' || c == '\x0c'

def stripChars (s : List Char) : List Char :=
  ((s.dropWhile isPySpace).reverse.dropWhile isPySpace).reverse

def splitFirst : List Char → Option (List Char × List Char)
  | [] => none
  | c :: cs =>
      if c = ';' then some ([], cs)
      else (splitFirst cs).map (fun p => (c :: p.1, p.2))

/-- `req.split(';', 2)`: at most three parts. -/
def pySplit2 (s : List Char) : List (List Char) :=
  match splitFirst s with
  | none => [s]
  | some (a, r) =>
      match splitFirst r with
      | none => [a, r]
      | some (b, r2) => [a, b, r2]

def jsonEmptyChars : List Char := ("\x7b\x7d").data

def countSemis : List Char → Nat
  | [] => 0
  | c :: cs => (if c = ';' then 1 else 0) + countSemis cs

/-- parseIncomeMsg: unpacking into three parts raises unless the split produced
exactly three, in which case the first two are stripped; on the exception the
empty triplet is returned. -/
def parseIncomeMsg (msg : List Char) : List Char × List Char × List Char :=
  match pySplit2 msg with
  | [a, b, c] => (stripChars a, stripChars b, c)
  | _ => ([], [], jsonEmptyChars)

def getChars : List Char := ("GET").data
def postChars : List Char := ("POST").data
def loginChars : List Char := ("login").data
def sensorsChars : List Char := ("sensors").data
def stationsChars : List Char := ("stations").data
def trainsPlcChars : List Char := ("trainsPlc").data
def trainsRtuChars : List Char := ("trainsRtu").data
def signalsChars : List Char := ("signals").data
def powerLinkChars : List Char := ("powerLink").data

/-- The request-key/type pairs that reach a handler branch in msgHandler. -/
def routesToHandler (k t : List Char) : Bool :=
  (k == getChars &&
    (t == loginChars || t == sensorsChars || t == stationsChars ||
     t == trainsPlcChars || t == trainsRtuChars)) ||
  (k == postChars &&
    (t == signalsChars || t == stationsChars || t == trainsPlcChars ||
     t == powerLinkChars))

def denyReply : List Char := ("REP;deny;\x7b\x7d").data

/-- The dispatcher's decode-route-reply skeleton: `handlerReply` abstracts the
reply a matched handler branch builds; `resp` keeps its deny default when no
branch matches; the empty message returns `None`. -/
def msgHandler (handlerReply : List Char → List Char → List Char → List Char)
    (msg : List Char) : Option (List Char) :=
  if msg = [] then none
  else
    let p := parseIncomeMsg msg
    if routesToHandler p.1 p.2.1 then some (handlerReply p.1 p.2.1 p.2.2)
    else some denyReply

/-! ## setSignals -/

def setSingals (e : Engine) (k : String) (v : Int) : Engine :=
  { e with signals := e.signals ++ [(k, v)] }

def setSignals (eng : Option Engine) (juncAvoid : Bool)
    (req : Option (List (String × Int))) : Option Engine × Bool :=
  match req with
  | none => (eng, false)
  | some pairs =>
      match eng with
      | none => (none, false)
      | some e =>
          if juncAvoid then (some e, true)
          else (some (pairs.foldl (fun a p => setSingals a p.1 p.2) e), true)

/-! ## Liveness reports -/

def getLastPlcsConnectionState (now timeout : ℚ) (dm : DM) :
    (ℚ × Bool) × (ℚ × Bool) × (ℚ × Bool) :=
  ((dm.sensorPlcUpdateT, decide (now - dm.sensorPlcUpdateT < timeout)),
   (dm.stationPlcUpdateT, decide (now - dm.stationPlcUpdateT < timeout)),
   (dm.trainPlcUpdateT, decide (now - dm.trainPlcUpdateT < timeout)))

def getLastRtusConnectionState (now timeout : ℚ) (dm : DM) : ℚ × Bool :=
  (dm.trainRtuUpdateT, decide (now - dm.trainRtuUpdateT < timeout))

/-! ## Telemetry aggregation (_collectMetroTotalsPayloads) -/

def infoOf (t : EngineTrain) : RealInfo := t.realInfo.getD emptyRealInfo

/-- `float(info.get('current', 0) or 0)`; `none` means the conversion raised. -/
def currentContribution (i : RealInfo) : Option ℚ :=
  let x := i.current.getD (FVal.fnum 0)
  pyFloat (if pyTruthy x then x else FVal.fnum 0)

/-- The voltage appended for one train: skipped when missing, `None`, or when
`float(v)` raises (that append sits in its own try/except). -/
def voltageReading (i : RealInfo) : Option ℚ :=
  match i.voltage with
  | none => none
  | some FVal.fnone => none
  | some v => pyFloat v

def lineTotalsAux : List EngineTrain → ℚ → List ℚ → Option (ℚ × List ℚ)
  | [], tot, volts => some (tot, volts)
  | t :: ts, tot, volts =>
      match currentContribution (infoOf t) with
      | none => none
      | some c =>
          match voltageReading (infoOf t) with
          | some v => lineTotalsAux ts (tot + c) (volts ++ [v])
          | none => lineTotalsAux ts (tot + c) volts

/-- One line's payload fields `(bus_v, total_i, train_count)`; `none` when the
current conversion raised, aborting the aggregation. -/
def lineTotals (ts : List EngineTrain) : Option (ℚ × ℚ × Nat) :=
  (lineTotalsAux ts 0 []).map
    (fun p => ((if p.2 = [] then 0 else p.2.sum / (p.2.length : ℚ)), p.1, ts.length))

def collectMetroTotalsPayloads (eng : Option Engine) :
    Option (List (String × ℚ × ℚ × Nat)) :=
  match eng with
  | none => some []
  | some e =>
      match lineTotals (e.trains welineK), lineTotals (e.trains nslineK),
            lineTotals (e.trains cclineK), lineTotals (e.trains mtlineK) with
      | some a, some b, some c, some d =>
          some [(welineK, a), (nslineK, b), (cclineK, c), (mtlineK, d)]
      | _, _, _, _ => none

/-! ## Concrete instances used by witnesses and counterexamples -/

def trainD : EngineTrain :=
  { emgStop := false, emgFails := false, powerState := 0, realInfo := none }

def tFail : EngineTrain :=
  { emgStop := false, emgFails := true, powerState := 1, realInfo := none }

def tGood : EngineTrain :=
  { emgStop := false, emgFails := false, powerState := 1, realInfo := none }

def eCex : Engine :=
  { sensors := fun _ => []
    stations := fun _ => []
    trains := fun k => if k = welineK then [tFail, tGood]
                       else if k = nslineK then [tGood] else []
    signals := [] }

def engW : Engine :=
  { sensors := fun k =>
      if k = cclineK then [0, 0, 0, 0, 0, 0, 1, 0]
      else if k = nslineK then [0, 0, 1, 0, 0] else []
    stations := fun _ => []
    trains := fun _ => []
    signals := [] }

def tCur (q : ℚ) (v : Option FVal) : EngineTrain :=
  { emgStop := false, emgFails := false, powerState := 1,
    realInfo := some { fsensor := some (.fnum 0), speed := some (.fnum 0),
                       voltage := v, current := some (.fnum q) } }

def tsW : List EngineTrain := [tCur 2 (some (.fnum 10)), tCur 3 (some .fnone)]

def tBadCurrent : EngineTrain :=
  { emgStop := false, emgFails := false, powerState := 1,
    realInfo := some { fsensor := none, speed := none,
                       voltage := some (.fnum 10), current := some (.fstr false none) } }

def tsBad : List EngineTrain := [tCur 2 (some (.fnum 10)), tBadCurrent]

def dmX : DM := { initDM with sensorPlcUpdateT := 2 }

/-! # Lemmas and claim theorems -/

/-! ## Dictionary lemmas -/

lemma dictHas_iff {V : Type} (d : List (String × V)) (k : String) :
    dictHas d k = true ↔ k ∈ dictKeys d := by
  induction d with
  | nil => simp [dictHas, dictKeys]
  | cons p ps ih =>
      simp only [dictHas, List.any_cons, Bool.or_eq_true, decide_eq_true_eq,
        dictKeys, List.map_cons, List.mem_cons] at *
      constructor
      · rintro (h | h)
        · exact Or.inl h.symm
        · exact Or.inr (ih.1 h)
      · rintro (h | h)
        · exact Or.inl h.symm
        · exact Or.inr (ih.2 h)

lemma dictKeys_mapSet {V : Type} (d : List (String × V)) (k : String) (v : V) :
    dictKeys (d.map (fun p => if p.1 = k then (k, v) else p)) = dictKeys d := by
  induction d with
  | nil => rfl
  | cons p ps ih =>
      simp only [dictKeys, List.map_cons] at *
      have h1 : (if p.1 = k then (k, v) else p).1 = p.1 := by
        split
        · rename_i h; simp [h]
        · rfl
      rw [h1, ih]

lemma dictKeys_set {V : Type} (d : List (String × V)) (k : String) (v : V)
    (h : k ∈ dictKeys d) : dictKeys (dictSet d k v) = dictKeys d := by
  unfold dictSet
  rw [if_pos ((dictHas_iff d k).2 h)]
  exact dictKeys_mapSet d k v

lemma dictGet_set_self {V : Type} (d : List (String × V)) (k : String) (v : V)
    (h : k ∈ dictKeys d) : dictGet (dictSet d k v) k = some v := by
  unfold dictSet
  rw [if_pos ((dictHas_iff d k).2 h)]
  induction d with
  | nil => simp [dictKeys] at h
  | cons p ps ih =>
      by_cases hpk : p.1 = k
      · simp [dictGet, hpk]
      · simp only [dictKeys, List.map_cons, List.mem_cons] at h
        rcases h with h | h
        · exact absurd h.symm hpk
        · simp [dictGet, hpk, ih h]

lemma dictGet_mapSet_ne {V : Type} (d : List (String × V)) (k k2 : String) (v : V)
    (h : k2 ≠ k) :
    dictGet (d.map (fun p => if p.1 = k then (k, v) else p)) k2 = dictGet d k2 := by
  induction d with
  | nil => rfl
  | cons p ps ih =>
      by_cases hpk : p.1 = k
      · have hp2 : ¬ p.1 = k2 := by rw [hpk]; exact Ne.symm h
        simp [dictGet, hpk, Ne.symm h, hp2, ih]
      · simp only [List.map_cons, if_neg hpk, dictGet]
        by_cases hp2 : p.1 = k2
        · rw [if_pos hp2, if_pos hp2]
        · rw [if_neg hp2, if_neg hp2, ih]

lemma dictGet_append_ne {V : Type} (d : List (String × V)) (k k2 : String) (v : V)
    (h : k2 ≠ k) : dictGet (d ++ [(k, v)]) k2 = dictGet d k2 := by
  induction d with
  | nil => simp [dictGet, Ne.symm h]
  | cons p ps ih =>
      by_cases hp2 : p.1 = k2
      · simp [dictGet, hp2]
      · simp [dictGet, hp2, ih]

lemma dictGet_set_ne {V : Type} (d : List (String × V)) (k k2 : String) (v : V)
    (h : k2 ≠ k) : dictGet (dictSet d k v) k2 = dictGet d k2 := by
  unfold dictSet
  split
  · exact dictGet_mapSet_ne d k k2 v h
  · exact dictGet_append_ne d k k2 v h

lemma dictKeys_foldlSet {V : Type} (f : String → V) :
    ∀ (ks : List String) (acc : List (String × V)),
      (∀ x ∈ ks, x ∈ dictKeys acc) →
      dictKeys (ks.foldl (fun a x => dictSet a x (f x)) acc) = dictKeys acc := by
  intro ks
  induction ks with
  | nil => intro acc _; rfl
  | cons x xs ih =>
      intro acc h
      simp only [List.foldl_cons]
      have hx : x ∈ dictKeys acc := h x (by simp)
      have hacc : ∀ y ∈ xs, y ∈ dictKeys (dictSet acc x (f x)) := by
        intro y hy
        rw [dictKeys_set acc x (f x) hx]
        exact h y (by simp [hy])
      rw [ih _ hacc, dictKeys_set acc x (f x) hx]

lemma dictGet_foldlSet {V : Type} (f : String → V) :
    ∀ (ks : List String) (acc : List (String × V)) (k : String),
      (∀ x ∈ ks, x ∈ dictKeys acc) →
      dictGet (ks.foldl (fun a x => dictSet a x (f x)) acc) k =
        if k ∈ ks then some (f k) else dictGet acc k := by
  intro ks
  induction ks with
  | nil => intro acc k _; simp
  | cons x xs ih =>
      intro acc k h
      simp only [List.foldl_cons]
      have hx : x ∈ dictKeys acc := h x (by simp)
      have hacc : ∀ y ∈ xs, y ∈ dictKeys (dictSet acc x (f x)) := by
        intro y hy
        rw [dictKeys_set acc x (f x) hx]
        exact h y (by simp [hy])
      rw [ih _ k hacc]
      by_cases hk : k ∈ xs
      · simp [hk, List.mem_cons]
      · by_cases hkx : k = x
        · subst hkx
          simp [hk, dictGet_set_self acc k (f k) hx]
        · simp only [if_neg hk, List.mem_cons]
          rw [if_neg (by tauto)]
          exact dictGet_set_ne acc x k (f x) hkx

lemma dictKeys_refresh {V : Type} (d : List (String × V)) (f : String → V) :
    dictKeys (dictRefresh d f) = dictKeys d :=
  dictKeys_foldlSet f (dictKeys d) d (fun _ hx => hx)

lemma dictGet_refresh {V : Type} (d : List (String × V)) (f : String → V) (k : String)
    (h : k ∈ dictKeys d) : dictGet (dictRefresh d f) k = some (f k) := by
  unfold dictRefresh
  rw [dictGet_foldlSet f (dictKeys d) d k (fun _ hx => hx), if_pos h]

lemma dictGet_some_mem {V : Type} (d : List (String × V)) (k : String) (v : V)
    (h : dictGet d k = some v) : k ∈ dictKeys d := by
  induction d with
  | nil => simp [dictGet] at h
  | cons p ps ih =>
      by_cases hp : p.1 = k
      · simp [dictKeys, hp]
      · simp only [dictGet, if_neg hp] at h
        simp only [dictKeys, List.map_cons]
        exact List.mem_cons_of_mem _ (ih h)

lemma dictGet_isSome_of_mem {V : Type} (d : List (String × V)) (k : String)
    (h : k ∈ dictKeys d) : (dictGet d k).isSome := by
  induction d with
  | nil => simp [dictKeys] at h
  | cons p ps ih =>
      by_cases hp : p.1 = k
      · simp [dictGet, hp]
      · simp only [dictKeys, List.map_cons, List.mem_cons] at h
        rcases h with h | h
        · exact absurd h.symm hp
        · simp [dictGet, hp, ih h]

lemma dictKeys_updateSensorPriority (d : List (String × Option (List Nat))) :
    dictKeys (updateSensorPriority d) = dictKeys d := by
  unfold updateSensorPriority
  split
  · rename_i cc hget
    split
    · rfl
    · exact dictKeys_set d cclineK _ (dictGet_some_mem d cclineK _ hget)
  · rfl

lemma dictKeys_updateTrainsSenDataAux (e : Engine) :
    ∀ (ks : List String) (d : List (String × Option (List RtuEntry))),
      (∀ x ∈ ks, x ∈ dictKeys d) →
      dictKeys (updateTrainsSenDataAux e ks d).1 = dictKeys d := by
  intro ks
  induction ks with
  | nil => intro d _; rfl
  | cons k ks ih =>
      intro d h
      have hk : k ∈ dictKeys d := h k (by simp)
      simp only [updateTrainsSenDataAux]
      split
      · rw [ih _ (by intro y hy; rw [dictKeys_set d k _ hk]; exact h y (by simp [hy])),
          dictKeys_set d k _ hk]
      · exact dictKeys_set d k _ hk

/-- Claim C10: each of the four snapshot tables (sensors, stations, train-power,
train-telemetry) holds exactly the four line keys weline, nsline, ccline, mtline
after initialization, and none of the update or fetch operations ever adds a key
to or removes a key from any table. -/
theorem snapshotTables_keys_invariant :
    tablesKeys initDM = (lineKeys, lineKeys, lineKeys, lineKeys) ∧
    (∀ eng testMD dm, tablesKeys (updateSensorsData eng testMD dm) = tablesKeys dm) ∧
    (∀ eng dm, tablesKeys (updateStationsData eng dm) = tablesKeys dm) ∧
    (∀ eng dm, tablesKeys (updateTrainsPwrData eng dm) = tablesKeys dm) ∧
    (∀ eng dm, tablesKeys (updateTrainsSenData eng dm).1 = tablesKeys dm) ∧
    (∀ now eng testMD dm req,
      tablesKeys (fetchSensorInfo now eng testMD dm req).1 = tablesKeys dm) ∧
    (∀ now eng dm req, tablesKeys (fetchStationInfo now eng dm req).1 = tablesKeys dm) ∧
    (∀ now eng dm req, tablesKeys (fetchTrainPwrInfo now eng dm req).1 = tablesKeys dm) ∧
    (∀ now eng dm req, tablesKeys (fetchTrainSensInfo now eng dm req).1 = tablesKeys dm) := by
  have hsen : ∀ eng testMD dm, tablesKeys (updateSensorsData eng testMD dm) = tablesKeys dm := by
    intro eng testMD dm
    cases eng with
    | none => rfl
    | some e =>
        simp only [updateSensorsData, tablesKeys]
        cases testMD with
        | true => simp [dictKeys_refresh]
        | false => simp [dictKeys_updateSensorPriority, dictKeys_refresh]
  have hsta : ∀ eng dm, tablesKeys (updateStationsData eng dm) = tablesKeys dm := by
    intro eng dm
    cases eng with
    | none => rfl
    | some e => simp [updateStationsData, tablesKeys, dictKeys_refresh]
  have hpwr : ∀ eng dm, tablesKeys (updateTrainsPwrData eng dm) = tablesKeys dm := by
    intro eng dm
    cases eng with
    | none => rfl
    | some e => simp [updateTrainsPwrData, tablesKeys, dictKeys_refresh]
  have hrtu : ∀ eng dm, tablesKeys (updateTrainsSenData eng dm).1 = tablesKeys dm := by
    intro eng dm
    cases eng with
    | none => rfl
    | some e =>
        simp only [updateTrainsSenData, tablesKeys]
        rw [dictKeys_updateTrainsSenDataAux e (dictKeys dm.trainsRtuDict)
          dm.trainsRtuDict (fun _ hx => hx)]
  refine ⟨by decide, hsen, hsta, hpwr, hrtu, ?_, ?_, ?_, ?_⟩
  · intro now eng testMD dm req
    cases req with
    | none => rfl
    | some reqDict => exact hsen eng testMD { dm with sensorPlcUpdateT := now }
  · intro now eng dm req
    cases req with
    | none => rfl
    | some reqDict => exact hsta eng { dm with stationPlcUpdateT := now }
  · intro now eng dm req
    cases req with
    | none => rfl
    | some reqDict => exact hpwr eng { dm with trainPlcUpdateT := now }
  · intro now eng dm req
    cases req with
    | none => rfl
    | some reqDict =>
        simp only [fetchTrainSensInfo]
        have h := hrtu eng { dm with trainRtuUpdateT := now }
        split
        · split
          · exact h
          · exact h
        · exact h

/-! ## Fan-out lemmas (C2) -/

lemma applyLineTrains_length : ∀ (ts : List EngineTrain) (flag : Bool),
    (applyLineTrains ts flag).length = ts.length := by
  intro ts flag
  induction ts with
  | nil => rfl
  | cons t ts ih =>
      simp only [applyLineTrains]
      split
      · rfl
      · simp [ih]

lemma applyLineTrains_getD : ∀ (ts : List EngineTrain) (flag : Bool) (i : Nat),
    i < ts.length →
    (applyLineTrains ts flag).getD i trainD =
      if ∀ j, j < i + 1 → (ts.getD j trainD).emgFails = false
      then { ts.getD i trainD with emgStop := flag }
      else ts.getD i trainD := by
  intro ts
  induction ts with
  | nil => intro flag i hi; simp at hi
  | cons t ts ih =>
      intro flag i hi
      simp only [applyLineTrains]
      by_cases ht : t.emgFails
      · rw [if_pos ht, if_neg]
        intro hall
        have h0 := hall 0 (by omega)
        simp only [List.getD_cons_zero] at h0
        rw [h0] at ht
        exact Bool.false_ne_true ht
      · rw [if_neg ht]
        cases i with
        | zero =>
            have hc : ∀ j, j < 0 + 1 → ((t :: ts).getD j trainD).emgFails = false := by
              intro j hj
              have hj0 : j = 0 := by omega
              subst hj0
              simpa using Bool.eq_false_iff.mpr ht
            rw [if_pos hc]
            simp
        | succ n =>
            have hn : n < ts.length := by simpa using hi
            simp only [List.getD_cons_succ]
            rw [ih flag n hn]
            by_cases hc : ∀ j, j < n + 1 → (ts.getD j trainD).emgFails = false
            · rw [if_pos hc, if_pos]
              intro j hj
              cases j with
              | zero => simpa using Bool.eq_false_iff.mpr ht
              | succ m =>
                  simp only [List.getD_cons_succ]
                  exact hc m (by omega)
            · rw [if_neg hc, if_neg]
              intro hall
              apply hc
              intro j hj
              have := hall (j + 1) (by omega)
              simpa using this

/-- Claim C2 counterexample: in the fan-out for railway_on = false, the first
weline train's failing setEmgStop aborts that line's loop, so the second weline
train keeps emgStop = false even though the claim says the emergency stop
reaches every remaining train of the same line (nsline is still processed). -/
theorem fanout_same_line_skipped_cex :
    (applyRailwayPowerLink false (some eCex)).map
        (fun e2 => ((e2.trains welineK).map EngineTrain.emgStop,
                    (e2.trains nslineK).map EngineTrain.emgStop)) =
      some ([false, false], [true]) ∧
    (eCex.trains welineK).length = 2 := by
  constructor
  · rfl
  · rfl

/-- Claim C2 (amended): applying railway_on = false fans setEmgStop(true) out to
the trains of every one of the four lines, with failures caught per line: a
train whose setEmgStop raises leaves itself and every later train of its own
line untouched (the per-line loop aborts), while every train preceded only by
non-failing trains on its line is stopped, and the other lines are processed
independently. -/
theorem fanout_perLine_catch (e : Engine) (k : String) (hk : k ∈ lineKeys) :
    ∃ e2, applyRailwayPowerLink false (some e) = some e2 ∧
      (e2.trains k).length = (e.trains k).length ∧
      ∀ i, i < (e.trains k).length →
        (e2.trains k).getD i trainD =
          if ∀ j, j < i + 1 → ((e.trains k).getD j trainD).emgFails = false
          then { (e.trains k).getD i trainD with emgStop := true }
          else (e.trains k).getD i trainD := by
  refine ⟨_, rfl, ?_, ?_⟩
  · show (if k ∈ lineKeys then applyLineTrains (e.trains k) (!false) else e.trains k).length
        = (e.trains k).length
    rw [if_pos hk]
    exact applyLineTrains_length (e.trains k) (!false)
  · intro i hi
    show (if k ∈ lineKeys then applyLineTrains (e.trains k) (!false) else e.trains k).getD i trainD
        = _
    rw [if_pos hk]
    exact applyLineTrains_getD (e.trains k) true i hi

/-- Witness for C2 at the concrete engine eCex and line weline. -/
theorem fanout_perLine_catch_witness :
    welineK ∈ lineKeys ∧
    (∃ e2, applyRailwayPowerLink false (some eCex) = some e2 ∧
      (e2.trains welineK).length = (eCex.trains welineK).length ∧
      ∀ i, i < (eCex.trains welineK).length →
        (e2.trains welineK).getD i trainD =
          if ∀ j, j < i + 1 → ((eCex.trains welineK).getD j trainD).emgFails = false
          then { (eCex.trains welineK).getD i trainD with emgStop := true }
          else (eCex.trains welineK).getD i trainD) :=
  ⟨by decide, fanout_perLine_catch eCex welineK (by decide)⟩

/-- Claim C1: evaluation of the poll-path watcher debounce. The first three
conjuncts hold as claimed (no trip without a true reading; 2 consecutive false
readings do not trip; 3 do, exactly once). The fourth conjunct exhibits the
divergence: after the trip, the very next false reading keeps false_count at
3 or more, so the stop fan-out is applied again — the trip is not one-shot. -/
theorem powerLinkWatcher_debounce_eval :
    stopCount [false, false, false] = 0 ∧
    stopCount [true, false, false] = 0 ∧
    stopCount [true, false, false, false] = 1 ∧
    stopCount [true, false, false, false, false] = 2 := by
  refine ⟨rfl, rfl, rfl, rfl⟩

/-- Claim C4: the push path is edge-triggered. From a state whose last applied
power-link value is unknown, the first POST/powerLink request applies the
fan-out; an immediately repeated request with the same boolean applies nothing
and leaves both the engine and the manager state unchanged; and from any state,
a request whose value differs from the last applied value triggers an
application. -/
theorem powerLink_push_edgeTrigger (eng : Option Engine) (dm : DM) (v : Bool)
    (h : dm.lastPowerlinkRailway = none) :
    (handlePowerLink eng dm v).2.2 = true ∧
    (handlePowerLink (handlePowerLink eng dm v).1 (handlePowerLink eng dm v).2.1 v).2.2
      = false ∧
    (handlePowerLink (handlePowerLink eng dm v).1 (handlePowerLink eng dm v).2.1 v).1
      = (handlePowerLink eng dm v).1 ∧
    (handlePowerLink (handlePowerLink eng dm v).1 (handlePowerLink eng dm v).2.1 v).2.1
      = (handlePowerLink eng dm v).2.1 ∧
    (∀ (eng2 : Option Engine) (dm2 : DM) (b v2 : Bool),
        dm2.lastPowerlinkRailway = some b → v2 ≠ b →
        (handlePowerLink eng2 dm2 v2).2.2 = true) := by
  refine ⟨?_, ?_, ?_, ?_, ?_⟩
  · simp [handlePowerLink, h]
  · simp [handlePowerLink, h]
  · simp [handlePowerLink, h]
  · simp [handlePowerLink, h]
  · intro eng2 dm2 b v2 h2 hne
    simp [handlePowerLink, h2, hne]

/-- Witness for C4 from the initial manager state. -/
theorem powerLink_push_edgeTrigger_witness :
    initDM.lastPowerlinkRailway = none ∧
    ((handlePowerLink none initDM false).2.2 = true ∧
     (handlePowerLink (handlePowerLink none initDM false).1
        (handlePowerLink none initDM false).2.1 false).2.2 = false ∧
     (handlePowerLink (handlePowerLink none initDM false).1
        (handlePowerLink none initDM false).2.1 false).1
       = (handlePowerLink none initDM false).1 ∧
     (handlePowerLink (handlePowerLink none initDM false).1
        (handlePowerLink none initDM false).2.1 false).2.1
       = (handlePowerLink none initDM false).2.1 ∧
     (∀ (eng2 : Option Engine) (dm2 : DM) (b v2 : Bool),
         dm2.lastPowerlinkRailway = some b → v2 ≠ b →
         (handlePowerLink eng2 dm2 v2).2.2 = true)) :=
  ⟨rfl, powerLink_push_edgeTrigger none initDM false rfl⟩

/-- Claim C9: every channel's liveness flag is true exactly when
now - lastUpdate < timeoutThreshold under strict less-than, and when the
difference equals the threshold the channel reports offline. -/
theorem liveness_strict_boundary (now timeout : ℚ) (dm : DM) :
    ((getLastPlcsConnectionState now timeout dm).1.2 = true ↔
        now - dm.sensorPlcUpdateT < timeout) ∧
    ((getLastPlcsConnectionState now timeout dm).2.1.2 = true ↔
        now - dm.stationPlcUpdateT < timeout) ∧
    ((getLastPlcsConnectionState now timeout dm).2.2.2 = true ↔
        now - dm.trainPlcUpdateT < timeout) ∧
    ((getLastRtusConnectionState now timeout dm).2 = true ↔
        now - dm.trainRtuUpdateT < timeout) ∧
    (now - dm.sensorPlcUpdateT = timeout →
        (getLastPlcsConnectionState now timeout dm).1.2 = false) ∧
    (now - dm.stationPlcUpdateT = timeout →
        (getLastPlcsConnectionState now timeout dm).2.1.2 = false) ∧
    (now - dm.trainPlcUpdateT = timeout →
        (getLastPlcsConnectionState now timeout dm).2.2.2 = false) ∧
    (now - dm.trainRtuUpdateT = timeout →
        (getLastRtusConnectionState now timeout dm).2 = false) := by
  unfold getLastPlcsConnectionState getLastRtusConnectionState
  refine ⟨by simp, by simp, by simp, by simp, ?_, ?_, ?_, ?_⟩
  · intro h; simp [h]
  · intro h; simp [h]
  · intro h; simp [h]
  · intro h; simp [h]

/-- Witness for C9 at the exact boundary: last update 2, now 5, threshold 3. -/
theorem liveness_strict_boundary_witness :
    (5 : ℚ) - dmX.sensorPlcUpdateT = 3 ∧
    (getLastPlcsConnectionState 5 3 dmX).1.2 = false := by
  have h : (5 : ℚ) - dmX.sensorPlcUpdateT = 3 := by
    show (5 : ℚ) - 2 = 3
    norm_num
  exact ⟨h, (liveness_strict_boundary 5 3 dmX).2.2.2.2.1 h⟩

/-- Claim C8: for a POST/signals request with the simulation engine available,
when the junction-avoidance flag is inactive the engine's signal setter is
invoked once per key/value pair of the body (the call log grows by exactly
those pairs, in order) and success is reported; when the flag is active no
setter call is made — the engine is returned unchanged — yet success is still
reported. -/
theorem setSignals_juncAvoid_spec :
    ∀ (e : Engine) (pairs : List (String × Int)),
      setSignals (some e) false (some pairs) =
        (some { e with signals := e.signals ++ pairs }, true) ∧
      setSignals (some e) true (some pairs) = (some e, true) := by
  have hfold : ∀ (pairs : List (String × Int)) (e : Engine),
      pairs.foldl (fun a p => setSingals a p.1 p.2) e =
        { e with signals := e.signals ++ pairs } := by
    intro pairs
    induction pairs with
    | nil => intro e; cases e; simp
    | cons p ps ih =>
        intro e
        simp only [List.foldl_cons]
        rw [ih (setSingals e p.1 p.2)]
        cases e
        simp [setSingals, List.append_assoc]
  intro e pairs
  constructor
  · simp only [setSignals, if_neg (Bool.false_ne_true)]
    rw [hfold pairs e]
  · rfl

/-! ## Codec lemmas (C5) -/

lemma splitFirst_eq_none : ∀ (s : List Char), countSemis s = 0 → splitFirst s = none := by
  intro s
  induction s with
  | nil => intro _; rfl
  | cons c cs ih =>
      intro h
      simp only [countSemis] at h
      by_cases hc : c = ';'
      · rw [if_pos hc] at h; omega
      · rw [if_neg hc] at h
        have h2 : countSemis cs = 0 := by omega
        simp only [splitFirst, if_neg hc, ih h2, Option.map_none']

lemma countSemis_splitFirst : ∀ (s a r : List Char),
    splitFirst s = some (a, r) → countSemis s = countSemis r + 1 := by
  intro s
  induction s with
  | nil => intro a r h; simp [splitFirst] at h
  | cons c cs ih =>
      intro a r h
      simp only [splitFirst] at h
      by_cases hc : c = ';'
      · rw [if_pos hc] at h
        simp only [Option.some.injEq, Prod.mk.injEq] at h
        simp only [countSemis, if_pos hc, h.2]
        omega
      · rw [if_neg hc] at h
        cases hsf : splitFirst cs with
        | none => rw [hsf] at h; simp at h
        | some p =>
            rw [hsf] at h
            simp only [Option.map_some', Option.some.injEq, Prod.mk.injEq] at h
            have := ih p.1 p.2 (by rw [hsf])
            simp [countSemis, hc, this, ← h.2]

/-- Claim C5 counterexample: a message with three semicolons (four
semicolon-delimited parts, hence not exactly 3) is split by maxsplit-2 into a
routable triplet with the extra semicolon kept in the body, not into the empty
triplet, and the dispatcher does not reply deny to it. -/
theorem parseIncomeMsg_extraParts_cex :
    countSemis (("GET;sensors;\x7b\x7d;extra").data) = 3 ∧
    parseIncomeMsg (("GET;sensors;\x7b\x7d;extra").data) =
      (("GET").data, ("sensors").data, ("\x7b\x7d;extra").data) ∧
    parseIncomeMsg (("GET;sensors;\x7b\x7d;extra").data) ≠ ([], [], jsonEmptyChars) ∧
    routesToHandler (parseIncomeMsg (("GET;sensors;\x7b\x7d;extra").data)).1
      (parseIncomeMsg (("GET;sensors;\x7b\x7d;extra").data)).2.1 = true ∧
    msgHandler (fun _ _ _ => []) (("GET;sensors;\x7b\x7d;extra").data) ≠ some denyReply := by
  refine ⟨rfl, rfl, by decide, rfl, by decide⟩

/-- Claim C5 (amended): every nonempty inbound message with fewer than two
semicolons (so it cannot be split into three parts) is decoded to the triplet
("", "", "\x7b\x7d") without raising, that triplet routes to no handler, and
the dispatcher replies REP;deny;\x7b\x7d to the message.  (Messages with more
than two semicolons are instead split into three parts with the extra
semicolons retained in the body, and the empty message gets no reply at all.) -/
theorem malformed_short_msg_denied
    (hr : List Char → List Char → List Char → List Char) (msg : List Char)
    (hne : msg ≠ []) (hsem : countSemis msg < 2) :
    parseIncomeMsg msg = ([], [], jsonEmptyChars) ∧
    routesToHandler (parseIncomeMsg msg).1 (parseIncomeMsg msg).2.1 = false ∧
    msgHandler hr msg = some denyReply := by
  have hp : parseIncomeMsg msg = ([], [], jsonEmptyChars) := by
    cases h1 : splitFirst msg with
    | none =>
        have h2 : pySplit2 msg = [msg] := by simp [pySplit2, h1]
        unfold parseIncomeMsg
        rw [h2]
    | some p =>
        obtain ⟨a, r⟩ := p
        have hcnt := countSemis_splitFirst msg a r h1
        have hr0 : countSemis r = 0 := by omega
        have h2 : pySplit2 msg = [a, r] := by
          simp [pySplit2, h1, splitFirst_eq_none r hr0]
        unfold parseIncomeMsg
        rw [h2]
  refine ⟨hp, ?_, ?_⟩
  · rw [hp]
    rfl
  · unfold msgHandler
    rw [if_neg hne, hp]
    rfl

/-- Witness for C5 on the one-part message "GET". -/
theorem malformed_short_msg_denied_witness :
    (("GET").data ≠ ([] : List Char)) ∧ countSemis (("GET").data) < 2 ∧
    (parseIncomeMsg (("GET").data) = ([], [], jsonEmptyChars) ∧
     routesToHandler (parseIncomeMsg (("GET").data)).1
       (parseIncomeMsg (("GET").data)).2.1 = false ∧
     msgHandler (fun _ _ _ => []) (("GET").data) = some denyReply) :=
  ⟨by decide, by decide,
   malformed_short_msg_denied (fun _ _ _ => []) (("GET").data) (by decide) (by decide)⟩

/-! ## Fetch lemmas (C3) -/

lemma rtuFill_eq (trainsD : List (String × Option (List Nat)))
    (rtuD : List (String × Option (List RtuEntry)))
    (h : ∀ k2, dictHas trainsD k2 = true → k2 ∈ dictKeys rtuD) :
    ∀ req, rtuFill trainsD rtuD req =
      some (req.map (fun p =>
        if dictHas trainsD p.1 then (p.1, (dictGet rtuD p.1).getD none) else p)) := by
  intro req
  induction req with
  | nil => rfl
  | cons p ps ih =>
      by_cases hh : dictHas trainsD p.1
      · have hsome := dictGet_isSome_of_mem rtuD p.1 (h p.1 hh)
        cases hv : dictGet rtuD p.1 with
        | none => rw [hv] at hsome; simp at hsome
        | some v => simp [rtuFill, if_pos hh, hv, ih]
      · simp [rtuFill, if_neg hh, ih, hh]

/-- Claim C3 counterexample: a sensors fetch with the simulation engine
unavailable is not a complete no-op — the snapshot table is indeed unchanged,
but the channel's liveness timestamp is refreshed to the current time (5)
instead of being left at its previous value (0). -/
theorem fetch_timestamp_refreshed_cex :
    (fetchSensorInfo 5 none false initDM (some [(welineK, none)])).1.sensorPlcUpdateT = 5 ∧
    initDM.sensorPlcUpdateT = 0 ∧ (5 : ℚ) ≠ 0 ∧
    (fetchSensorInfo 5 none false initDM (some [(welineK, none)])).1.sensorsDict =
      initDM.sensorsDict := by
  refine ⟨rfl, rfl, by norm_num, rfl⟩

/-- Claim C3 (amended): for every fetch on any of the four channels with a
well-formed state and a parseable body, if the simulation engine is unavailable
the snapshot tables are left unchanged and the previously cached value
(possibly None) is returned for each requested line key — but the channel's
last-update liveness timestamp is set to the current time rather than left
unchanged. -/
theorem fetch_engineUnavailable (now : ℚ) (testMD : Bool) (dm : DM)
    (req1 req2 req3 : List (String × Option (List Nat)))
    (req4 : List (String × Option (List RtuEntry))) (hwf : dmWF dm) :
    (fetchSensorInfo now none testMD dm (some req1)).1 =
      { dm with sensorPlcUpdateT := now } ∧
    (fetchSensorInfo now none testMD dm (some req1)).2 =
      .ok (req1.map (fillFrom dm.sensorsDict)) ∧
    (fetchStationInfo now none dm (some req2)).1 =
      { dm with stationPlcUpdateT := now } ∧
    (fetchStationInfo now none dm (some req2)).2 =
      .ok (req2.map (fillFrom dm.stationsDict)) ∧
    (fetchTrainPwrInfo now none dm (some req3)).1 =
      { dm with trainPlcUpdateT := now } ∧
    (fetchTrainPwrInfo now none dm (some req3)).2 =
      .ok (req3.map (fillFrom dm.trainsDict)) ∧
    (fetchTrainSensInfo now none dm (some req4)).1 =
      { dm with trainRtuUpdateT := now } ∧
    (fetchTrainSensInfo now none dm (some req4)).2 =
      .ok (req4.map (fun p =>
        if dictHas dm.trainsDict p.1
        then (p.1, (dictGet dm.trainsRtuDict p.1).getD none) else p)) := by
  have hfill : rtuFill dm.trainsDict dm.trainsRtuDict req4 =
      some (req4.map (fun p =>
        if dictHas dm.trainsDict p.1
        then (p.1, (dictGet dm.trainsRtuDict p.1).getD none) else p)) := by
    apply rtuFill_eq
    · intro k2 hk2
      have := (dictHas_iff dm.trainsDict k2).1 hk2
      rw [hwf.2.2.1] at this
      rw [hwf.2.2.2]
      exact this
  refine ⟨rfl, rfl, rfl, rfl, rfl, rfl, ?_, ?_⟩
  · simp only [fetchTrainSensInfo, updateTrainsSenData]
    rw [hfill]
    simp
  · simp only [fetchTrainSensInfo, updateTrainsSenData]
    rw [hfill]
    simp

/-- Witness for C3 at the initial manager state with current time 5. -/
theorem fetch_engineUnavailable_witness :
    dmWF initDM ∧
    ((fetchSensorInfo 5 none false initDM (some [(welineK, none)])).1 =
       { initDM with sensorPlcUpdateT := 5 } ∧
     (fetchSensorInfo 5 none false initDM (some [(welineK, none)])).2 =
       .ok ([(welineK, none)].map (fillFrom initDM.sensorsDict)) ∧
     (fetchStationInfo 5 none initDM (some [(welineK, none)])).1 =
       { initDM with stationPlcUpdateT := 5 } ∧
     (fetchStationInfo 5 none initDM (some [(welineK, none)])).2 =
       .ok ([(welineK, none)].map (fillFrom initDM.stationsDict)) ∧
     (fetchTrainPwrInfo 5 none initDM (some [(welineK, none)])).1 =
       { initDM with trainPlcUpdateT := 5 } ∧
     (fetchTrainPwrInfo 5 none initDM (some [(welineK, none)])).2 =
       .ok ([(welineK, none)].map (fillFrom initDM.trainsDict)) ∧
     (fetchTrainSensInfo 5 none initDM (some [(welineK, none)])).1 =
       { initDM with trainRtuUpdateT := 5 } ∧
     (fetchTrainSensInfo 5 none initDM (some [(welineK, none)])).2 =
       .ok ([(welineK, none)].map (fun p =>
         if dictHas initDM.trainsDict p.1
         then (p.1, (dictGet initDM.trainsRtuDict p.1).getD none) else p))) :=
  ⟨by decide,
   fetch_engineUnavailable 5 false initDM [(welineK, none)] [(welineK, none)]
     [(welineK, none)] [(welineK, none)] (by decide)⟩

/-! ## Telemetry lemmas (C7) -/

lemma lineTotalsAux_spec :
    ∀ (ts : List EngineTrain) (tot : ℚ) (volts : List ℚ),
      (∀ t ∈ ts, currentContribution (infoOf t) ≠ none) →
      lineTotalsAux ts tot volts =
        some (tot + (ts.map (fun t => (currentContribution (infoOf t)).getD 0)).sum,
              volts ++ ts.filterMap (fun t => voltageReading (infoOf t))) := by
  intro ts
  induction ts with
  | nil => intro tot volts _; simp [lineTotalsAux]
  | cons t ts ih =>
      intro tot volts h
      have ht := h t (by simp)
      cases hc : currentContribution (infoOf t) with
      | none => exact absurd hc ht
      | some c =>
          have htail : ∀ t2 ∈ ts, currentContribution (infoOf t2) ≠ none := by
            intro t2 ht2; exact h t2 (by simp [ht2])
          cases hv : voltageReading (infoOf t) with
          | some v =>
              simp only [lineTotalsAux, hc, hv, ih (tot + c) (volts ++ [v]) htail,
                List.map_cons, List.sum_cons, List.filterMap_cons]
              simp [hv, add_assoc, List.append_assoc]
          | none =>
              simp only [lineTotalsAux, hc, hv, ih (tot + c) volts htail,
                List.map_cons, List.sum_cons, List.filterMap_cons]
              simp [hv, add_assoc]

/-- Claim C7 counterexample: a train whose reported current is a non-empty
unparseable string makes float() raise, aborting the whole line's aggregation
(lineTotals = none) instead of the bad reading being treated as 0 — the good
first train's reading is lost too. -/
theorem lineTotals_unparseable_abort_cex :
    lineTotals tsBad = none ∧ tsBad.length = 2 ∧
    currentContribution (infoOf (tCur 2 (some (.fnum 10)))) = some 2 := by
  refine ⟨rfl, rfl, rfl⟩

/-- Claim C7 (amended): for a line none of whose trains carries a current
reading that raises in float() (missing, None, zero, empty-string and numeric
or parseable currents are all fine), the aggregate yields totalCurrent = the
sum of the per-train contributions (missing/falsy treated as 0), busVoltage =
the arithmetic mean of the parseable voltage readings (trains with a missing,
None or unparseable voltage are ignored) or 0 if there are none, and
trainCount = the number of trains; a non-empty unparseable current string
instead raises and aborts the whole aggregation. -/
theorem lineTotals_benign_spec (ts : List EngineTrain)
    (h : ∀ t ∈ ts, currentContribution (infoOf t) ≠ none) :
    lineTotals ts = some
      ((if ts.filterMap (fun t => voltageReading (infoOf t)) = [] then 0
        else (ts.filterMap (fun t => voltageReading (infoOf t))).sum /
             ((ts.filterMap (fun t => voltageReading (infoOf t))).length : ℚ)),
       (ts.map (fun t => (currentContribution (infoOf t)).getD 0)).sum,
       ts.length) := by
  unfold lineTotals
  rw [lineTotalsAux_spec ts 0 [] h]
  simp

/-- Witness for C7 on the spec's example line: currents [2, 3] and voltages
[10, None] yield totalCurrent 5, busVoltage 10, trainCount 2. -/
theorem lineTotals_benign_spec_witness :
    (∀ t ∈ tsW, currentContribution (infoOf t) ≠ none) ∧
    lineTotals tsW = some (10, 5, 2) := by
  constructor
  · decide
  · rw [lineTotals_benign_spec tsW (by decide)]
    simp [tsW, tCur, infoOf, voltageReading, currentContribution, pyFloat, pyTruthy]
    norm_num

/-! ## Resolver lemmas (C6) -/

lemma getDset_eq {α : Type} (l : List α) (n : Nat) (a dflt : α) (h : n < l.length) :
    (l.set n a).getD n dflt = a := by
  induction l generalizing n with
  | nil => simp at h
  | cons x xs ih =>
      cases n with
      | zero => rfl
      | succ m =>
          simp only [List.set_cons_succ, List.getD_cons_succ]
          exact ih m (by simpa using h)

lemma getDset_ne {α : Type} (l : List α) (n i : Nat) (a dflt : α) (h : i ≠ n) :
    (l.set n a).getD i dflt = l.getD i dflt := by
  induction l generalizing n i with
  | nil => simp [List.set]
  | cons x xs ih =>
      cases n with
      | zero =>
          cases i with
          | zero => exact absurd rfl h
          | succ m => simp [List.set_cons_zero, List.getD_cons_succ]
      | succ m =>
          cases i with
          | zero => simp [List.set_cons_succ, List.getD_cons_zero]
          | succ j =>
              simp only [List.set_cons_succ, List.getD_cons_succ]
              exact ih m j (by omega)

lemma resolveStep_length (d : List (String × Option (List Nat))) (acc : List Nat)
    (i : Nat) : (resolveStep d acc i).length = acc.length := by
  unfold resolveStep
  cases priorityConfig.getD i none with
  | none => rfl
  | some r =>
      simp only []
      split
      · exact List.length_set acc i 0
      · rfl

lemma resolveStep_eq_none (d : List (String × Option (List Nat))) (acc : List Nat)
    (n : Nat) (h : priorityConfig.getD n none = none) : resolveStep d acc n = acc := by
  unfold resolveStep
  rw [h]

lemma resolveStep_eq_some (d : List (String × Option (List Nat))) (acc : List Nat)
    (n : Nat) (r : String × List Nat) (h : priorityConfig.getD n none = some r) :
    resolveStep d acc n =
      (if acc.getD n 0 ≠ 0 ∧ (r.2.any (fun j =>
          decide (j < (((dictGet d r.1).getD none).getD []).length) &&
          decide ((((dictGet d r.1).getD none).getD []).getD j 0 ≠ 0))) = true
       then acc.set n 0 else acc) := by
  unfold resolveStep
  rw [h]

lemma ccSpecVal_eq_none (d : List (String × Option (List Nat))) (cc : List Nat)
    (n : Nat) (h : priorityConfig.getD n none = none) : ccSpecVal d cc n = cc.getD n 0 := by
  unfold ccSpecVal
  rw [h]

lemma ccSpecVal_eq_some (d : List (String × Option (List Nat))) (cc : List Nat)
    (n : Nat) (r : String × List Nat) (h : priorityConfig.getD n none = some r) :
    ccSpecVal d cc n =
      (if cc.getD n 0 ≠ 0 ∧ (r.2.any (fun j =>
          decide (j < (((dictGet d r.1).getD none).getD []).length) &&
          decide ((((dictGet d r.1).getD none).getD []).getD j 0 ≠ 0))) = true
       then 0 else cc.getD n 0) := by
  unfold ccSpecVal
  rw [h]

lemma resolveCc_fold (d : List (String × Option (List Nat))) (cc : List Nat) :
    ∀ n, n ≤ cc.length →
      ((List.range n).foldl (resolveStep d) cc).length = cc.length ∧
      ∀ i, ((List.range n).foldl (resolveStep d) cc).getD i 0 =
        if i < n then ccSpecVal d cc i else cc.getD i 0 := by
  intro n
  induction n with
  | zero =>
      intro _
      exact ⟨rfl, by intro i; simp⟩
  | succ n ihn =>
      intro hn
      obtain ⟨ihlen, ihget⟩ := ihn (by omega)
      rw [List.range_succ, List.foldl_append, List.foldl_cons, List.foldl_nil]
      have hvaln : ((List.range n).foldl (resolveStep d) cc).getD n 0 = cc.getD n 0 := by
        rw [ihget n]; simp
      have hstep : ∀ (acc : List Nat), acc.getD n 0 = cc.getD n 0 →
          acc.length = cc.length →
          ∀ i, (resolveStep d acc n).getD i 0 =
            if i = n then ccSpecVal d cc n else acc.getD i 0 := by
        intro acc hv hl i
        cases hcfg : priorityConfig.getD n none with
        | none =>
            rw [resolveStep_eq_none d acc n hcfg]
            by_cases hin : i = n
            · subst hin
              rw [if_pos rfl, ccSpecVal_eq_none d cc i hcfg, hv]
            · rw [if_neg hin]
        | some r =>
            rw [resolveStep_eq_some d acc n r hcfg, hv]
            by_cases hcond : cc.getD n 0 ≠ 0 ∧ (r.2.any (fun j =>
                decide (j < (((dictGet d r.1).getD none).getD []).length) &&
                decide ((((dictGet d r.1).getD none).getD []).getD j 0 ≠ 0))) = true
            · rw [if_pos hcond]
              by_cases hin : i = n
              · subst hin
                rw [getDset_eq _ _ _ _ (by rw [hl]; omega), if_pos rfl,
                  ccSpecVal_eq_some d cc i r hcfg, if_pos hcond]
              · rw [getDset_ne _ _ _ _ _ hin, if_neg hin]
            · rw [if_neg hcond]
              by_cases hin : i = n
              · subst hin
                rw [if_pos rfl, ccSpecVal_eq_some d cc i r hcfg, if_neg hcond]
                exact hv
              · rw [if_neg hin]
      constructor
      · rw [resolveStep_length, ihlen]
      · intro i
        rw [hstep _ hvaln ihlen i]
        by_cases hin : i = n
        · subst hin
          rw [if_pos rfl, if_pos (by omega)]
        · rw [if_neg hin, ihget i]
          by_cases hi : i < n
          · rw [if_pos hi, if_pos (by omega)]
          · rw [if_neg hi, if_neg (by omega)]

lemma resolveCc_length (d : List (String × Option (List Nat))) (cc : List Nat) :
    (resolveCc d cc).length = cc.length :=
  (resolveCc_fold d cc cc.length le_rfl).1

lemma resolveCc_getD (d : List (String × Option (List Nat))) (cc : List Nat) (i : Nat)
    (h : i < cc.length) : (resolveCc d cc).getD i 0 = ccSpecVal d cc i := by
  have := (resolveCc_fold d cc cc.length le_rfl).2 i
  rwa [if_pos h] at this

lemma priorityConfig_keys : ∀ (i : Nat) (r : String × List Nat),
    priorityConfig.getD i none = some r → r.1 ∈ lineKeys := by
  intro i r h
  have hi : i < priorityConfig.length := by
    by_contra hge
    rw [List.getD_eq_default _ _ (by omega)] at h
    exact Option.noConfusion h
  have hlen : priorityConfig.length = 16 := rfl
  rw [hlen] at hi
  interval_cases i <;>
    simp only [priorityConfig, List.getD_cons_zero, List.getD_cons_succ,
      Option.some.injEq] at h <;>
    first
      | exact Option.noConfusion h
      | (subst h; decide)

lemma updateSensorPriority_eq_some (d : List (String × Option (List Nat)))
    (cc : List Nat) (h : dictGet d cclineK = some (some cc)) :
    updateSensorPriority d =
      if cc = [] then d else dictSet d cclineK (some (resolveCc d cc)) := by
  unfold updateSensorPriority
  rw [h]

lemma ccSpecVal_refresh_some (d : List (String × Option (List Nat))) (e : Engine)
    (cc : List Nat) (i : Nat) (r : String × List Nat)
    (hkeys : dictKeys d = lineKeys) (hcfg : priorityConfig.getD i none = some r) :
    ccSpecVal (dictRefresh d (fun k => some (e.sensors k))) cc i =
      (if cc.getD i 0 ≠ 0 ∧
          ∃ j ∈ r.2, j < (e.sensors r.1).length ∧ (e.sensors r.1).getD j 0 ≠ 0
       then 0 else cc.getD i 0) := by
  have hk : r.1 ∈ dictKeys d := by
    rw [hkeys]; exact priorityConfig_keys i r hcfg
  rw [ccSpecVal_eq_some _ cc i r hcfg,
    dictGet_refresh d (fun k => some (e.sensors k)) r.1 hk]
  simp only [Option.getD_some]
  have hiff : (r.2.any (fun j =>
      decide (j < (e.sensors r.1).length) &&
      decide ((e.sensors r.1).getD j 0 ≠ 0))) = true ↔
      ∃ j ∈ r.2, j < (e.sensors r.1).length ∧ (e.sensors r.1).getD j 0 ≠ 0 := by
    simp [List.any_eq_true]
  by_cases hc : cc.getD i 0 ≠ 0 ∧
      ∃ j ∈ r.2, j < (e.sensors r.1).length ∧ (e.sensors r.1).getD j 0 ≠ 0
  · rw [if_pos ⟨hc.1, hiff.2 hc.2⟩, if_pos hc]
  · rw [if_neg (fun hand => hc ⟨hand.1, hiff.1 hand.2⟩), if_neg hc]

/-- Claim C6: with test mode off, refreshing the sensors snapshot applies the
priority resolver to the refreshed cc-line array before the snapshot is used:
for every index i below the cc-line length, an index with no rule (or beyond
the 16 rule slots) keeps its refreshed value, and an index whose rule is
(otherLine, js) is forced to 0 exactly when the refreshed cc value at i is
truthy and some listed in-bounds index of the named other line's refreshed
array is truthy, and keeps its refreshed value otherwise — so the resolver
only ever clears values to 0 and never sets one. -/
theorem sensorPriority_resolver_spec (dm : DM) (e : Engine) (hwf : dmWF dm) :
    priorityConfig.length = 16 ∧
    ∃ cc2, dictGet (updateSensorsData (some e) false dm).sensorsDict cclineK
        = some (some cc2) ∧
      cc2.length = (e.sensors cclineK).length ∧
      (∀ i, i < (e.sensors cclineK).length →
        (priorityConfig.getD i none = none →
          cc2.getD i 0 = (e.sensors cclineK).getD i 0) ∧
        (∀ r, priorityConfig.getD i none = some r →
          cc2.getD i 0 =
            (if (e.sensors cclineK).getD i 0 ≠ 0 ∧
                ∃ j ∈ r.2, j < (e.sensors r.1).length ∧ (e.sensors r.1).getD j 0 ≠ 0
             then 0 else (e.sensors cclineK).getD i 0))) ∧
      (∀ i, i < (e.sensors cclineK).length →
        cc2.getD i 0 = 0 ∨ cc2.getD i 0 = (e.sensors cclineK).getD i 0) := by
  have hkeys : dictKeys dm.sensorsDict = lineKeys := hwf.1
  have hccmem : cclineK ∈ dictKeys dm.sensorsDict := by
    rw [hkeys]; decide
  have hd1 : dictGet (dictRefresh dm.sensorsDict (fun k => some (e.sensors k))) cclineK
      = some (some (e.sensors cclineK)) :=
    dictGet_refresh dm.sensorsDict (fun k => some (e.sensors k)) cclineK hccmem
  have hupd : (updateSensorsData (some e) false dm).sensorsDict =
      updateSensorPriority (dictRefresh dm.sensorsDict (fun k => some (e.sensors k))) := rfl
  rw [hupd, updateSensorPriority_eq_some _ _ hd1]
  by_cases hnil : e.sensors cclineK = []
  · rw [if_pos hnil]
    refine ⟨rfl, e.sensors cclineK, hd1, rfl, ?_, ?_⟩
    · intro i hi
      rw [hnil] at hi
      simp at hi
    · intro i hi
      rw [hnil] at hi
      simp at hi
  · rw [if_neg hnil]
    have hkeys1 : cclineK ∈ dictKeys (dictRefresh dm.sensorsDict
        (fun k => some (e.sensors k))) := by
      rw [dictKeys_refresh]
      exact hccmem
    have hval : ∀ i, i < (e.sensors cclineK).length →
        (resolveCc (dictRefresh dm.sensorsDict (fun k => some (e.sensors k)))
          (e.sensors cclineK)).getD i 0 =
        ccSpecVal (dictRefresh dm.sensorsDict (fun k => some (e.sensors k)))
          (e.sensors cclineK) i := by
      intro i hi
      exact resolveCc_getD _ _ i hi
    refine ⟨rfl, resolveCc (dictRefresh dm.sensorsDict (fun k => some (e.sensors k)))
        (e.sensors cclineK),
      dictGet_set_self _ cclineK _ hkeys1, resolveCc_length _ _, ?_, ?_⟩
    · intro i hi
      constructor
      · intro hcfg
        rw [hval i hi, ccSpecVal_eq_none _ _ i hcfg]
      · intro r hcfg
        rw [hval i hi,
          ccSpecVal_refresh_some dm.sensorsDict e (e.sensors cclineK) i r hkeys hcfg]
    · intro i hi
      rw [hval i hi]
      cases hcfg : priorityConfig.getD i none with
      | none =>
          right
          exact ccSpecVal_eq_none _ _ i hcfg
      | some r =>
          rw [ccSpecVal_refresh_some dm.sensorsDict e (e.sensors cclineK) i r hkeys hcfg]
          by_cases hcnd : (e.sensors cclineK).getD i 0 ≠ 0 ∧
              ∃ j ∈ r.2, j < (e.sensors r.1).length ∧ (e.sensors r.1).getD j 0 ≠ 0
          · left
            rw [if_pos hcnd]
          · right
            rw [if_neg hcnd]

/-- Witness for C6 at the initial state and a concrete engine whose refreshed
cc-line array has a 1 at index 6 and whose nsline array is true at index 2 (the
rule at slot 6), so the resolver clears cc index 6. -/
theorem sensorPriority_resolver_spec_witness :
    dmWF initDM ∧
    (priorityConfig.length = 16 ∧
     ∃ cc2, dictGet (updateSensorsData (some engW) false initDM).sensorsDict cclineK
         = some (some cc2) ∧
       cc2.length = (engW.sensors cclineK).length ∧
       (∀ i, i < (engW.sensors cclineK).length →
         (priorityConfig.getD i none = none →
           cc2.getD i 0 = (engW.sensors cclineK).getD i 0) ∧
         (∀ r, priorityConfig.getD i none = some r →
           cc2.getD i 0 =
             (if (engW.sensors cclineK).getD i 0 ≠ 0 ∧
                 ∃ j ∈ r.2, j < (engW.sensors r.1).length ∧
                   (engW.sensors r.1).getD j 0 ≠ 0
              then 0 else (engW.sensors cclineK).getD i 0))) ∧
       (∀ i, i < (engW.sensors cclineK).length →
         cc2.getD i 0 = 0 ∨ cc2.getD i 0 = (engW.sensors cclineK).getD i 0)) :=
  ⟨by decide, sensorPriority_resolver_spec initDM engW (by decide)⟩
